import Mathlib

/-!
Shallow embedding of `src/satisfactory-accounting-app/src/node_display.rs` and
`src/satisfactory-accounting-app/src/node_display/icon.rs`.

The `Node` / `Group` data type comes from the `satisfactory_accounting::accounting`
crate; its shape is fully determined by how `node_display.rs` uses it (a tagged
union of `Group { name, children }` and the opaque leaf `Building`).  The Yew
component handlers are embedded as pure functions: an `update` call either emits
exactly one value on the `replace` callback or logs one warning, which we record
in an explicit outcome type; the `GroupName` component's local state is made an
explicit record and its `update` returns the new state together with the list of
values emitted on the `rename` callback and the warnings logged.
-/

/-- A node of the accounting tree: a `Group` (named container with ordered
children) or a `Building` (leaf, opaque to the editor). -/
inductive Node where
  | group (name : String) (children : List Node)
  | building

/-- Messages which can be sent to a `NodeDisplay` (enum `NodeMsg`). -/
inductive NodeMsg where
  | replaceChild (idx : Nat) (replacement : Node)
  | deleteChild (idx : Nat)
  | addChild (child : Node)
  | rename (name : String)

/-- Outcome of one `NodeDisplay::update` call: either exactly one emission on
the `replace` callback (carrying the pair passed to `Callback::emit`), or one
logged warning with no emission.  Every arm of the Rust `match` does exactly one
of the two. -/
inductive UpdateOutcome where
  | emit (idx : Nat) (newNode : Node)
  | warn (msg : String)

/-- Rust `char::is_whitespace`: the Unicode White_Space property, i.e. the
code points U+0009-U+000D, U+0020, U+0085, U+00A0, U+1680, U+2000-U+200A,
U+2028, U+2029, U+202F, U+205F and U+3000. -/
def rustIsWhitespace (c : Char) : Bool :=
  (0x09 ≤ c.val && c.val ≤ 0x0D) || c.val = 0x20 || c.val = 0x85 ||
  c.val = 0xA0 || c.val = 0x1680 || (0x2000 ≤ c.val && c.val ≤ 0x200A) ||
  c.val = 0x2028 || c.val = 0x2029 || c.val = 0x202F || c.val = 0x205F ||
  c.val = 0x3000

/-- Rust `str::trim`: remove leading and trailing Unicode-whitespace
characters, embedded directly on the character list. -/
def rustTrim (s : String) : String :=
  String.mk (((s.data.dropWhile rustIsWhitespace).reverse.dropWhile
    rustIsWhitespace).reverse)

/-- `ctx.props().path.last().copied().unwrap_or_default()` from
`NodeDisplay::update`: the last element of the path, defaulting to `0` for the
root (empty path). -/
def ourIdx (path : List Nat) : Nat :=
  (path.getLast?).getD 0

/-- `NodeDisplay::update`, embedded over the props that the handler reads
(`node` and `path`; the `replace` callback becomes the `emit` outcome).
`Vec` index assignment is `List.set`, `Vec::remove` is `List.eraseIdx`,
`Vec::push` appends at the end, and `name.trim().to_owned()` is `rustTrim`. -/
def NodeDisplay.update (node : Node) (path : List Nat) (msg : NodeMsg) :
    UpdateOutcome :=
  match msg with
  | .replaceChild idx replacement =>
    match node with
    | .group name children =>
      if idx < children.length then
        .emit (ourIdx path) (.group name (children.set idx replacement))
      else
        .warn ("Cannot replace child index " ++ toString idx ++
          "; out of range for this group")
    | .building => .warn "Cannot replace child of a non-group"
  | .deleteChild idx =>
    match node with
    | .group name children =>
      if idx < children.length then
        .emit (ourIdx path) (.group name (children.eraseIdx idx))
      else
        .warn ("Cannot delete child index " ++ toString idx ++
          "; out of range for this group")
    | .building => .warn "Cannot delete child of a non-group"
  | .addChild child =>
    match node with
    | .group name children =>
      .emit (ourIdx path) (.group name (children ++ [child]))
    | .building => .warn "Cannot add child to a non-group"
  | .rename newName =>
    match node with
    | .group _ children =>
      .emit (ourIdx path) (.group (rustTrim newName) children)
    | .building => .warn "Cannot rename a non-group"

/-- Local state of the `GroupName` component: the optional in-progress draft
(`pending`) and the one-time focus flag.  (The DOM `NodeRef` is UI wiring with
no bearing on the state machine.) -/
structure GroupNameState where
  pending : Option String
  did_focus : Bool

/-- Result of one `GroupName::update` call: the successor state, the values
emitted on the `rename` callback during the call, and the warnings logged. -/
structure GroupNameStep where
  state : GroupNameState
  renames : List String
  warns : List String

/-- Messages for the `GroupName` component (enum `GroupNameMsg`). -/
inductive GroupNameMsg where
  | startEdit
  | updatePending (pending : String)
  | commitEdit

/-- `GroupName::update`, embedded over the `name` prop and the local state.
`StartEdit` initialises the draft from the current prop and clears the focus
flag; `UpdatePending` overwrites the draft; `CommitEdit` takes the draft
(`Option::take`), emitting it on `rename` when present and warning when not. -/
def GroupName.update (name : String) (s : GroupNameState) (msg : GroupNameMsg) :
    GroupNameStep :=
  match msg with
  | .startEdit => ⟨⟨some name, false⟩, [], []⟩
  | .updatePending p => ⟨⟨some p, s.did_focus⟩, [], []⟩
  | .commitEdit =>
    match s.pending with
    | some p => ⟨⟨none, s.did_focus⟩, [p], []⟩
    | none => ⟨s, [], ["CommitEdit while not editing."]⟩

/-- `GroupName::changed`: on any props change the draft is dropped
(`self.pending = None`); the body calls no callback, so the rename-emission
list of that step is empty. -/
def GroupName.changed (s : GroupNameState) : GroupNameState × List String :=
  (⟨none, s.did_focus⟩, [])

/-- Run a sequence of `GroupName` messages from a state (with a fixed `name`
prop, i.e. no props change in between), collecting all `rename` emissions in
order. -/
def GroupName.run (name : String) (s : GroupNameState) :
    List GroupNameMsg → GroupNameState × List String
  | [] => (s, [])
  | m :: ms =>
    let r := GroupName.update name s m
    let rest := GroupName.run name r.state ms
    (rest.1, r.renames ++ rest.2)

/-- The html produced by `NodeDisplay::delete_button`: either a delete button
wired to emit a fixed index on the `delete` callback, or nothing. -/
inductive DeleteButtonHtml where
  | button (emitIdx : Nat)
  | empty

/-- `NodeDisplay::delete_button`, embedded over the presence of the `delete`
callback prop and the `path` prop.  `none` models the `expect` panic reached
when the callback is present but the path is empty. -/
def NodeDisplay.delete_button (delete : Bool) (path : List Nat) :
    Option DeleteButtonHtml :=
  match delete with
  | true =>
    match path.getLast? with
    | some idx => some (.button idx)
    | none => none
  | false => some .empty

/-- `slug_to_icon` (identical in `node_display.rs` and `icon.rs`): prepend
`"/images/items/"` and append `"_64.png"` to the slug. -/
def slug_to_icon (slug : String) : String :=
  "/images/items/" ++ slug ++ "_64.png"

/-- The html produced by the `Icon` component: an `img` with a computed `src`,
or the fixed material-icons error glyph. -/
inductive IconHtml where
  | img (src : String)
  | errorGlyph

/-- The `Icon` function component from `icon.rs`, over its `icon` prop. -/
def icon (slug : Option String) : IconHtml :=
  match slug with
  | some s => .img (slug_to_icon s)
  | none => .errorGlyph

/-- C1: handling `ReplaceChild(i, X)` on a Group with a valid index `i` emits
exactly one replace callback carrying a new Group with the same name, the same
number of children, child `i` equal to `X` and every other child unchanged, at
the index given by the last element of the instance's path. -/
theorem replaceChild_correct (name : String) (children : List Node)
    (path : List Nat) (i : Nat) (X : Node)
    (hi : i < children.length) (hp : path ≠ []) :
    ∃ cs : List Node,
      NodeDisplay.update (.group name children) path (.replaceChild i X)
        = .emit (path.getLast hp) (.group name cs)
      ∧ cs.length = children.length
      ∧ cs[i]? = some X
      ∧ ∀ j, j ≠ i → cs[j]? = children[j]? := by
  refine ⟨children.set i X, ?_, ?_, ?_, ?_⟩
  · simp [NodeDisplay.update, ourIdx, hi, List.getLast?_eq_getLast _ hp]
  · simp
  · simp [List.getElem?_set, hi]
  · intro j hj
    simp [List.getElem?_set, Ne.symm hj]

/-- Witness for C1 at a concrete group, path and index. -/
theorem replaceChild_correct_witness :
    ∃ cs : List Node,
      NodeDisplay.update (.group "g" [.building, .building]) [1]
          (.replaceChild 0 (.group "x" []))
        = .emit (([1] : List Nat).getLast (by simp)) (.group "g" cs)
      ∧ cs.length = ([Node.building, Node.building] : List Node).length
      ∧ cs[0]? = some (Node.group "x" [])
      ∧ ∀ j, j ≠ 0 → cs[j]? = ([Node.building, Node.building] : List Node)[j]? :=
  replaceChild_correct "g" [.building, .building] [1] 0 (.group "x" [])
    (by simp) (by simp)

/-- C2: handling `DeleteChild(i)` on a Group with a valid index `i` emits a new
Group with one fewer child, the children before `i` unchanged and every child
at index `j ≥ i` equal to the old child at `j + 1`. -/
theorem deleteChild_correct (name : String) (children : List Node)
    (path : List Nat) (i : Nat)
    (hi : i < children.length) (hp : path ≠ []) :
    ∃ cs : List Node,
      NodeDisplay.update (.group name children) path (.deleteChild i)
        = .emit (path.getLast hp) (.group name cs)
      ∧ cs.length = children.length - 1
      ∧ (∀ j, j < i → cs[j]? = children[j]?)
      ∧ (∀ j, i ≤ j → cs[j]? = children[j + 1]?) := by
  refine ⟨children.eraseIdx i, ?_, ?_, ?_, ?_⟩
  · simp [NodeDisplay.update, ourIdx, hi, List.getLast?_eq_getLast _ hp]
  · simp [List.length_eraseIdx, hi]
  · intro j hj
    simp [List.getElem?_eraseIdx, hj]
  · intro j hj
    simp [List.getElem?_eraseIdx, Nat.not_lt.mpr hj]

/-- Witness for C2 at a concrete group, path and index. -/
theorem deleteChild_correct_witness :
    ∃ cs : List Node,
      NodeDisplay.update (.group "g" [.group "a" [], .building]) [0, 2]
          (.deleteChild 0)
        = .emit (([0, 2] : List Nat).getLast (by simp)) (.group "g" cs)
      ∧ cs.length = ([Node.group "a" [], Node.building] : List Node).length - 1
      ∧ (∀ j, j < 0 → cs[j]? = ([Node.group "a" [], Node.building] : List Node)[j]?)
      ∧ (∀ j, 0 ≤ j →
          cs[j]? = ([Node.group "a" [], Node.building] : List Node)[j + 1]?) :=
  deleteChild_correct "g" [.group "a" [], .building] [0, 2] 0 (by simp) (by simp)

/-- C4: handling `AddChild(X)` on a Group emits a new Group whose children are
the old ones followed by `X`: one more child, child at the old length equal to
`X`, and the first `children.length` children unmodified. -/
theorem addChild_correct (name : String) (children : List Node)
    (path : List Nat) (X : Node) :
    ∃ cs : List Node,
      NodeDisplay.update (.group name children) path (.addChild X)
        = .emit (ourIdx path) (.group name cs)
      ∧ cs.length = children.length + 1
      ∧ cs[children.length]? = some X
      ∧ ∀ j, j < children.length → cs[j]? = children[j]? := by
  refine ⟨children ++ [X], rfl, by simp, List.getElem?_concat_length _ _, ?_⟩
  intro j hj
  simp [List.getElem?_append, hj]

/-- C5: handling `Rename(s)` on a Group emits a new Group whose name is exactly
`s` with leading and trailing whitespace trimmed (no other normalization) and
whose children are unchanged; `"  foo  "` trims to `"foo"` and the empty string
is accepted unchanged. -/
theorem rename_correct (name : String) (children : List Node)
    (path : List Nat) (s : String) :
    NodeDisplay.update (.group name children) path (.rename s)
      = .emit (ourIdx path) (.group (rustTrim s) children)
    ∧ rustTrim "  foo  " = "foo"
    ∧ rustTrim "" = "" :=
  ⟨rfl, by decide, by decide⟩

/-- C3: every precondition violation is dropped with a warning and no partial
effect: out-of-range `ReplaceChild` and `DeleteChild` on a Group warn and emit
nothing; every one of the four container-only intents sent to a non-Group node
warns and emits nothing; `CommitEdit` while not editing warns, emits no rename
and leaves the `GroupName` state unchanged. -/
theorem precondition_violation_drops :
    (∀ (name : String) (children : List Node) (path : List Nat) (i : Nat)
        (X : Node), children.length ≤ i →
      ∃ w, NodeDisplay.update (.group name children) path (.replaceChild i X)
        = .warn w)
    ∧ (∀ (name : String) (children : List Node) (path : List Nat) (i : Nat),
        children.length ≤ i →
      ∃ w, NodeDisplay.update (.group name children) path (.deleteChild i)
        = .warn w)
    ∧ (∀ (path : List Nat) (msg : NodeMsg),
      ∃ w, NodeDisplay.update .building path msg = .warn w)
    ∧ (∀ (name : String) (f : Bool),
      GroupName.update name ⟨none, f⟩ .commitEdit
        = ⟨⟨none, f⟩, [], ["CommitEdit while not editing."]⟩) := by
  refine ⟨?_, ?_, ?_, ?_⟩
  · intro name children path i X hi
    exact ⟨"Cannot replace child index " ++ toString i ++
        "; out of range for this group",
      by simp [NodeDisplay.update, Nat.not_lt.mpr hi]⟩
  · intro name children path i hi
    exact ⟨"Cannot delete child index " ++ toString i ++
        "; out of range for this group",
      by simp [NodeDisplay.update, Nat.not_lt.mpr hi]⟩
  · intro path msg
    cases msg <;> exact ⟨_, rfl⟩
  · intro name f
    rfl

/-- Witness for C3 at concrete inputs: an out-of-range replace and delete, a
message to a non-group, and a commit while not editing. -/
theorem precondition_violation_drops_witness :
    (∃ w, NodeDisplay.update (.group "g" []) [] (.replaceChild 0 .building)
      = .warn w)
    ∧ (∃ w, NodeDisplay.update (.group "g" [.building]) [0] (.deleteChild 1)
      = .warn w)
    ∧ (∃ w, NodeDisplay.update .building [] (.rename "n") = .warn w)
    ∧ GroupName.update "g" ⟨none, true⟩ .commitEdit
        = ⟨⟨none, true⟩, [], ["CommitEdit while not editing."]⟩ :=
  ⟨precondition_violation_drops.1 "g" [] [] 0 .building (by simp),
   precondition_violation_drops.2.1 "g" [.building] [0] 1 (by simp),
   precondition_violation_drops.2.2.1 [] (.rename "n"),
   precondition_violation_drops.2.2.2 "g" true⟩

/-- Helper for C6: from an Editing state with draft `p`, a run of
`UpdatePending` messages followed by `CommitEdit` emits exactly the last typed
string (or `p` if none were typed) and ends with no pending draft. -/
theorem run_updatePending (name p : String) (f : Bool) (ts : List String) :
    GroupName.run name ⟨some p, f⟩
        (ts.map GroupNameMsg.updatePending ++ [GroupNameMsg.commitEdit])
      = (⟨none, f⟩, [ts.getLastD p]) := by
  induction ts generalizing p with
  | nil => simp [GroupName.run, GroupName.update]
  | cons t ts ih =>
    simp [GroupName.run, GroupName.update, ih, List.getLastD_cons,
      List.getLast?_cons, List.getLastD_eq_getLast?]

/-- C6: from any state, `StartEdit`, then one `UpdatePending` per typed string,
then `CommitEdit` (no props change in between) emits exactly one rename call
carrying the final typed string, and leaves the field in the Viewing state
(`pending = none`). -/
theorem edit_roundtrip (n : String) (st : GroupNameState) (ts : List String)
    (h : ts ≠ []) :
    GroupName.run n st
        (GroupNameMsg.startEdit ::
          (ts.map GroupNameMsg.updatePending ++ [GroupNameMsg.commitEdit]))
      = (⟨none, false⟩, [ts.getLast h]) := by
  show (let r := GroupName.update n st .startEdit
        let rest := GroupName.run n r.state
          (ts.map GroupNameMsg.updatePending ++ [GroupNameMsg.commitEdit])
        (rest.1, r.renames ++ rest.2)) = _
  simp [GroupName.update, run_updatePending, List.getLastD_eq_getLast?,
    List.getLast?_eq_getLast _ h]

/-- Witness for C6: typing "a" then "ab" over the name "x" emits exactly
`["ab"]` and returns to Viewing. -/
theorem edit_roundtrip_witness :
    GroupName.run "x" ⟨none, true⟩
        (GroupNameMsg.startEdit ::
          ((["a", "ab"] : List String).map GroupNameMsg.updatePending
            ++ [GroupNameMsg.commitEdit]))
      = (⟨none, false⟩, [(["a", "ab"] : List String).getLast (by simp)]) :=
  edit_roundtrip "x" ⟨none, true⟩ ["a", "ab"] (by simp)

/-- C7: a props change while Editing (pending is some draft) sets the field
back to Viewing (`pending = none`), discards the draft, and emits no rename
call on that step. -/
theorem changed_discards_draft (d : String) (f : Bool) :
    GroupName.changed ⟨some d, f⟩ = (⟨none, f⟩, []) :=
  rfl

/-- C8: the delete affordance is rendered iff the delete callback prop is
present and then it is wired to the last element of the path; with the callback
present and an empty path the `expect` panics (modelled `none`); with the
callback absent nothing is rendered. -/
theorem delete_button_spec (del : Bool) (path : List Nat) :
    ((∃ i, NodeDisplay.delete_button del path = some (.button i))
      ↔ del = true ∧ path ≠ [])
    ∧ (∀ hp : path ≠ [],
        NodeDisplay.delete_button true path = some (.button (path.getLast hp)))
    ∧ NodeDisplay.delete_button true [] = none
    ∧ NodeDisplay.delete_button false path = some .empty := by
  refine ⟨⟨?_, ?_⟩, ?_, rfl, rfl⟩
  · rintro ⟨i, hi⟩
    cases del with
    | false => simp [NodeDisplay.delete_button] at hi
    | true =>
      refine ⟨rfl, ?_⟩
      rintro rfl
      simp [NodeDisplay.delete_button] at hi
  · rintro ⟨rfl, hne⟩
    exact ⟨path.getLast hne,
      by simp [NodeDisplay.delete_button, List.getLast?_eq_getLast _ hne]⟩
  · intro hp
    simp [NodeDisplay.delete_button, List.getLast?_eq_getLast _ hp]

/-- Witness for C8: with a delete callback and path `[2]` the button emits `2`;
with a delete callback and the empty path the code panics. -/
theorem delete_button_spec_witness :
    NodeDisplay.delete_button true [2]
      = some (.button (([2] : List Nat).getLast (by simp)))
    ∧ NodeDisplay.delete_button true [] = none :=
  ⟨(delete_button_spec true [2]).2.1 (by simp),
   (delete_button_spec true []).2.2.1⟩

/-- C9: icon resolution is purely syntactic: a present slug `s` resolves to the
image whose source is exactly `"/images/items/" ++ s ++ "_64.png"`, and an
absent slug renders the fixed error glyph, constructing no path. -/
theorem icon_resolution (s : String) :
    icon (some s) = .img ("/images/items/" ++ s ++ "_64.png")
    ∧ icon none = .errorGlyph :=
  ⟨rfl, rfl⟩

/-- C10: at the root (empty path) every emission produced by
`NodeDisplay::update` carries index `0`, because `our_idx` is the last path
element defaulted to `0`. -/
theorem root_emits_index_zero (node : Node) (msg : NodeMsg) (i : Nat)
    (n : Node) (h : NodeDisplay.update node [] msg = .emit i n) : i = 0 := by
  cases node with
  | building => cases msg <;> simp [NodeDisplay.update] at h
  | group name children =>
    cases msg with
    | replaceChild idx r =>
      by_cases hidx : idx < children.length <;>
        simp [NodeDisplay.update, ourIdx, hidx] at h
      exact h.1.symm
    | deleteChild idx =>
      by_cases hidx : idx < children.length <;>
        simp [NodeDisplay.update, ourIdx, hidx] at h
      exact h.1.symm
    | addChild c =>
      simp [NodeDisplay.update, ourIdx] at h
      exact h.1.symm
    | rename s =>
      simp [NodeDisplay.update, ourIdx] at h
      exact h.1.symm

/-- Witness for C10: adding a child to a group at the root emits index `0`. -/
theorem root_emits_index_zero_witness :
    NodeDisplay.update (.group "g" []) [] (.addChild .building)
      = .emit 0 (.group "g" [.building])
    ∧ (0 : Nat) = 0 :=
  ⟨rfl, root_emits_index_zero (.group "g" []) (.addChild .building) 0
    (.group "g" [.building]) rfl⟩
